import Mathlib

/-!
Verification of the Black-Litterman calculation engine
(`black_litterman/domain/engine.py`).

The engine's numerical core is embedded over `ℚ`:

* vectors over the asset universe are `Fin n → ℚ`, matrices are
  Mathlib `Matrix (Fin k) (Fin n) ℚ` (index alignment that pandas
  performs by label is carried by the types here);
* a second, label-indexed embedding (`SeriesL` / `FrameL`) models the
  pandas objects together with their index labels and the Python
  exception flow, for the claims about alignment errors;
* `scipy.optimize.minimize` is an external collaborator and is modelled
  as an oracle of type `Minimizer` supplied by the caller, mirroring the
  fields of scipy's OptimizeResult that the code touches (`x`,
  `success`).

`views.py` and `constants.py` of this repository are not part of the
sources provided; the `View` / `ViewCollection` data model and the
`Weights` label constants are modelled from the specification and are
marked as such.
-/

namespace BlackLitterman

/-- `CalculationSettings` from `engine.py` (lines 11-17): model
hyper-parameters and the analysis window.  The asset universe mapping is
kept as its ordered key list, which is the only way the engine uses it
(`list(self._calc_settings.asset_universe)`). -/
structure CalculationSettings where
  tau : ℚ
  riskAversion : ℚ
  startDate : String
  calculationDate : String
  assetUniverse : List String
  deriving Repr

/-- Modelled from the spec: `View` (§3, `views.py` is not under the
provided sources) — id, name, confidence in [0,1], asserted
out-performance, and the allocation row already aligned to the asset
universe (the result of `view.get_view_data_frame(universe)`). -/
structure View (n : Nat) where
  id : String
  viewName : String
  confidence : ℚ
  outPerformance : ℚ
  allocation : Fin n → ℚ

instance {n : Nat} : Inhabited (View n) :=
  ⟨{ id := "", viewName := "", confidence := 0, outPerformance := 0,
     allocation := fun _ => 0 }⟩

/-- Modelled from the spec: `ViewCollection` (§3) is "an ordered set of
Views with unique ids". -/
structure ViewCollection (n : Nat) where
  views : List (View n)
  nodupIds : (views.map View.id).Nodup

/-- Modelled from the spec: `view_collection.get_all_views()` returns the
sequence of views. -/
def ViewCollection.getAllViews {n : Nat} (vc : ViewCollection n) : List (View n) :=
  vc.views

/-- Modelled from the spec: `view_collection.get_view_matrix(universe)`
returns the matrix P with one row per view, columns aligned to the asset
universe. -/
def ViewCollection.getViewMatrix {n : Nat} (vc : ViewCollection n) :
    Matrix (Fin vc.views.length) (Fin n) ℚ :=
  Matrix.of fun i j => (vc.views.get i).allocation j

/-- Modelled from the spec: `view_collection.get_view_out_performances()`
returns the vector Q, one entry per view, aligned with the rows of P. -/
def ViewCollection.getViewOutPerformances {n : Nat} (vc : ViewCollection n) :
    Fin vc.views.length → ℚ :=
  fun i => (vc.views.get i).outPerformance

/-- Modelled from the spec: `view.get_view_data_frame(universe)` — the
single view's allocation as a 1-row matrix whose row label is the view
id and whose columns are the asset universe. -/
def View.singleRowMatrix {n : Nat} (view : View n) : Matrix (Fin 1) (Fin n) ℚ :=
  Matrix.of fun _ j => view.allocation j

/-- Line 187: `pd.Series([view.out_performance], index=[view.id])`. -/
def View.singleOutPerformance {n : Nat} (view : View n) : Fin 1 → ℚ :=
  fun _ => view.outPerformance

/-- `np.linalg.inv` on an invertible matrix: the inverse, computed here
as `det⁻¹ • adjugate` (the standard closed form; over `ℚ` this is the
exact value LAPACK approximates).  On a singular matrix `np.linalg.inv`
raises instead — that path is modelled by `getWeightsE` and
`npLinalgInvFrame` below. -/
def matInverse {k : Nat} (A : Matrix (Fin k) (Fin k) ℚ) : Matrix (Fin k) (Fin k) ℚ :=
  A.det⁻¹ • A.adjugate

/-- `BLEngine._get_weights` (lines 123-144), happy path on aligned data:
the types guarantee the alignment pandas performs by label, so the
`try/except ValueError` on lines 133-137 cannot fire and `np.linalg.inv`
is assumed invertible (the error paths are modelled separately by
`getWeightsE` and `getWeightsFrames`).

    mat_1   = view_cov.divide(tau) + view_matrix.dot(market_cov).dot(view_matrix.T)
    mat_1_inv = inv(mat_1)
    mat_2   = view_out_performance.divide(risk_aversion) - view_matrix.dot(market_cov).dot(market_weights)
    bl_weights = market_weights + view_matrix.T.dot(mat_1_inv).dot(mat_2)
-/
def getWeights {n k : Nat} (settings : CalculationSettings)
    (marketWeights : Fin n → ℚ) (marketCov : Matrix (Fin n) (Fin n) ℚ)
    (viewMatrix : Matrix (Fin k) (Fin n) ℚ) (viewCov : Matrix (Fin k) (Fin k) ℚ)
    (viewOutPerformance : Fin k → ℚ) : Fin n → ℚ :=
  let mat1 := Matrix.of (fun i j => viewCov i j / settings.tau) +
      viewMatrix * marketCov * viewMatrix.transpose
  let mat1Inv := matInverse mat1
  let mat2 := (fun i => viewOutPerformance i / settings.riskAversion) -
      (viewMatrix * marketCov).mulVec marketWeights
  marketWeights + (viewMatrix.transpose * mat1Inv).mulVec mat2

/-- Python-level failures that `BLEngine._get_weights` can surface.
`dimensionMismatch` is the error named by the specification's taxonomy
(§7); it is included so that theorems can state that the code never
produces it. -/
inductive PyError where
  /-- `UnboundLocalError`: a local variable referenced before assignment. -/
  | unboundLocalError
  /-- pandas `ValueError: matrices are not aligned`. -/
  | valueError
  /-- `np.linalg.LinAlgError: Singular matrix`. -/
  | singularMatrix
  /-- The spec's `DimensionMismatch` taxonomy item (never raised by the code). -/
  | dimensionMismatch
  deriving DecidableEq, Repr

/-- `BLEngine._get_weights` (lines 123-144) on aligned data, with the
`np.linalg.inv` failure modelled: on a singular `mat_1` the call raises
`LinAlgError: Singular matrix` (line 138 sits outside the `try` block,
so the error propagates to the caller). -/
def getWeightsE {n k : Nat} (settings : CalculationSettings)
    (marketWeights : Fin n → ℚ) (marketCov : Matrix (Fin n) (Fin n) ℚ)
    (viewMatrix : Matrix (Fin k) (Fin n) ℚ) (viewCov : Matrix (Fin k) (Fin k) ℚ)
    (viewOutPerformance : Fin k → ℚ) : Except PyError (Fin n → ℚ) :=
  let mat1 := Matrix.of (fun i j => viewCov i j / settings.tau) +
      viewMatrix * marketCov * viewMatrix.transpose
  if mat1.det = 0 then
    Except.error PyError.singularMatrix
  else
    let mat1Inv := matInverse mat1
    let mat2 := (fun i => viewOutPerformance i / settings.riskAversion) -
        (viewMatrix * marketCov).mulVec marketWeights
    Except.ok (marketWeights + (viewMatrix.transpose * mat1Inv).mulVec mat2)

/-- The posterior-weight formula exactly as the specification words it
(§4.1 and claim C1):

    posterior_weights = market_weights
      + view_matrixᵗ · inverse(view_cov / tau + view_matrix · market_cov · view_matrixᵗ)
        · (view_out_performance / risk_aversion − view_matrix · market_cov · market_weights)
-/
def specPosteriorWeights {n k : Nat} (tau riskAversion : ℚ)
    (marketWeights : Fin n → ℚ) (marketCov : Matrix (Fin n) (Fin n) ℚ)
    (viewMatrix : Matrix (Fin k) (Fin n) ℚ) (viewCov : Matrix (Fin k) (Fin k) ℚ)
    (viewOutPerformance : Fin k → ℚ) : Fin n → ℚ :=
  marketWeights + viewMatrix.transpose.mulVec
    ((matInverse (Matrix.of (fun i j => viewCov i j / tau) +
        viewMatrix * marketCov * viewMatrix.transpose)).mulVec
      ((fun i => viewOutPerformance i / riskAversion) -
        viewMatrix.mulVec (marketCov.mulVec marketWeights)))

/-- `BLEngine._get_sum_squares_error` (lines 165-175). -/
def sumSquaresError {n : Nat} (series1 series2 : Fin n → ℚ) : ℚ :=
  ∑ i, (series1 i - series2 i) ^ 2

/-- The fields of scipy's `OptimizeResult` that the engine touches. -/
structure MinimizeResult where
  x : ℚ
  success : Bool
  deriving DecidableEq, Repr

/-- `scipy.optimize.minimize(objective, x0, method="BFGS")`, an external
collaborator, modelled as an oracle from the objective and the initial
guess to an `OptimizeResult`. -/
def Minimizer : Type :=
  (ℚ → ℚ) → ℚ → MinimizeResult

/-- `BLEngine._get_view_target_weights` (lines 146-163):

    zero_view_cov = pd.DataFrame([0], index=[view.id], columns=[view.id])
    full_confidence_weights = self._get_weights(..., zero_view_cov, ...)
    max_weight_difference = full_confidence_weights - market_weights
    target_weights = market_weights.add(view.confidence * max_weight_difference)
-/
def getViewTargetWeights {n : Nat} (settings : CalculationSettings) (view : View n)
    (marketWeights : Fin n → ℚ) (marketCovariance : Matrix (Fin n) (Fin n) ℚ)
    (viewMatrix : Matrix (Fin 1) (Fin n) ℚ) (viewOutPerformance : Fin 1 → ℚ) :
    Fin n → ℚ :=
  let zeroViewCov : Matrix (Fin 1) (Fin 1) ℚ := Matrix.of fun _ _ => 0
  let fullConfidenceWeights :=
    getWeights settings marketWeights marketCovariance viewMatrix zeroViewCov viewOutPerformance
  let maxWeightDifference := fullConfidenceWeights - marketWeights
  marketWeights + view.confidence • maxWeightDifference

/-- `BLEngine._confidence_to_variance` (lines 177-199): builds the single
view's 1-row matrix and 1-entry Q, the target weights, and the scalar
objective, then returns `optimize.minimize(objective, 0.1, "BFGS").x[0]`
without inspecting the optimizer's success flag. -/
def confidenceToVariance {n : Nat} (minimize : Minimizer) (settings : CalculationSettings)
    (view : View n) (marketWeights : Fin n → ℚ)
    (marketCovariance : Matrix (Fin n) (Fin n) ℚ) : ℚ :=
  let viewMatrix := view.singleRowMatrix
  let viewOutPerformance := view.singleOutPerformance
  let targetWeights :=
    getViewTargetWeights settings view marketWeights marketCovariance viewMatrix viewOutPerformance
  let errorVsTargetWeights := fun var =>
    sumSquaresError
      (getWeights settings marketWeights marketCovariance viewMatrix
        (Matrix.of fun _ _ => var) viewOutPerformance)
      targetWeights
  (minimize errorVsTargetWeights (1 / 10)).x

/-- A Python `dict` over string keys as an insertion-ordered association
list; `dictUpdate` is `d.update({k: v})`: overwrite in place when the
key is present, append otherwise. -/
def dictUpdate (d : List (String × ℚ)) (k : String) (v : ℚ) : List (String × ℚ) :=
  if k ∈ d.map Prod.fst then
    d.map (fun p => if p.1 = k then (k, v) else p)
  else
    d ++ [(k, v)]

/-- `np.diag(values)`: the square matrix (row-major list of rows) with
`values` on the diagonal and zero elsewhere. -/
def npDiag (values : List ℚ) : List (List ℚ) :=
  (List.range values.length).map fun i =>
    (List.range values.length).map fun j =>
      if i = j then values.getD i 0 else 0

/-- A labelled `pd.Series` over `ℚ`: an index of labels and the values in
index order. -/
structure SeriesL where
  index : List String
  values : List ℚ
  deriving DecidableEq, Repr

/-- A labelled `pd.DataFrame` over `ℚ`: row labels, column labels, and
the entries as a row-major list of rows. -/
structure FrameL where
  rows : List String
  cols : List String
  data : List (List ℚ)
  deriving DecidableEq, Repr

/-- Positional entry access (like `.values[i][j]`); 0 outside range. -/
def FrameL.entryAt (f : FrameL) (i j : Nat) : ℚ :=
  (f.data.getD i []).getD j 0

/-- Label-based entry lookup (like `.loc[r, c]` on unique labels). -/
def FrameL.get (f : FrameL) (r c : String) : ℚ :=
  f.entryAt (f.rows.indexOf r) (f.cols.indexOf c)

/-- Label-based series lookup. -/
def SeriesL.get (s : SeriesL) (k : String) : ℚ :=
  s.values.getD (s.index.indexOf k) 0

/-- `DataFrame.transpose`. -/
def FrameL.transpose (f : FrameL) : FrameL :=
  ⟨f.cols, f.rows,
    (List.range f.cols.length).map fun j =>
      (List.range f.rows.length).map fun i => f.entryAt i j⟩

/-- `DataFrame.divide(scalar)`. -/
def FrameL.divideScalar (f : FrameL) (t : ℚ) : FrameL :=
  ⟨f.rows, f.cols, f.data.map fun row => row.map fun x => x / t⟩

/-- `Series.divide(scalar)`. -/
def SeriesL.divideScalar (s : SeriesL) (t : ℚ) : SeriesL :=
  ⟨s.index, s.values.map fun x => x / t⟩

/-- `DataFrame.dot(DataFrame)`: pandas raises
`ValueError: matrices are not aligned` unless the left columns and the
right row labels agree as sets; on success it aligns the product by
label, keeping the left row labels and right column labels. -/
def FrameL.dot (A B : FrameL) : Except PyError FrameL :=
  if A.cols.toFinset = B.rows.toFinset then
    Except.ok ⟨A.rows, B.cols,
      A.rows.map fun r => B.cols.map fun c =>
        (A.cols.map fun m => A.get r m * B.get m c).sum⟩
  else
    Except.error PyError.valueError

/-- `DataFrame.dot(Series)`: raises `ValueError` unless the frame's
columns and the series' index agree as sets; on success the product is
aligned by label. -/
def FrameL.dotSeries (A : FrameL) (s : SeriesL) : Except PyError SeriesL :=
  if A.cols.toFinset = s.index.toFinset then
    Except.ok ⟨A.rows,
      A.rows.map fun r => (A.cols.map fun m => A.get r m * s.get m).sum⟩
  else
    Except.error PyError.valueError

/-- `DataFrame + DataFrame`.  pandas never raises here: on equal label
sets it adds label-aligned entries (modelled exactly, keeping the left
order); on unequal sets it yields a union-shaped frame of NaNs, which
has no `ℚ` counterpart and is modelled as zero-filled junk — no theorem
in this file relies on that branch. -/
def FrameL.add (A B : FrameL) : FrameL :=
  if A.rows.toFinset = B.rows.toFinset ∧ A.cols.toFinset = B.cols.toFinset then
    ⟨A.rows, A.cols,
      A.rows.map fun r => A.cols.map fun c => A.get r c + B.get r c⟩
  else
    ⟨A.rows ++ B.rows, A.cols ++ B.cols, []⟩

/-- `Series + Series` / `Series.subtract`: same alignment behaviour as
`FrameL.add`. -/
def SeriesL.add (s t : SeriesL) : SeriesL :=
  if s.index.toFinset = t.index.toFinset then
    ⟨s.index, s.index.map fun k => s.get k + t.get k⟩
  else
    ⟨s.index ++ t.index, []⟩

/-- `Series - Series`, same alignment behaviour as `SeriesL.add`. -/
def SeriesL.sub (s t : SeriesL) : SeriesL :=
  if s.index.toFinset = t.index.toFinset then
    ⟨s.index, s.index.map fun k => s.get k - t.get k⟩
  else
    ⟨s.index ++ t.index, []⟩

/-- `pd.DataFrame(np.linalg.inv(f.values), index=f.index, columns=f.index)`
(line 138-139): raises `LinAlgError` when the value matrix is singular
(or not square), otherwise wraps the inverse with the original row
labels on both axes, exactly as the code does. -/
def npLinalgInvFrame (f : FrameL) : Except PyError FrameL :=
  let m := f.rows.length
  let A : Matrix (Fin m) (Fin m) ℚ := Matrix.of fun i j => f.entryAt i j
  if f.rows.length ≠ f.cols.length ∨ A.det = 0 then
    Except.error PyError.singularMatrix
  else
    Except.ok ⟨f.rows, f.rows,
      (List.finRange m).map fun i => (List.finRange m).map fun j =>
        matInverse A i j⟩

/-- `BLEngine._get_weights` (lines 123-144) over labelled pandas objects,
with the Python exception flow modelled:

* lines 133-137: the `try` block computes `mat_1`; a pandas
  `ValueError` from the misaligned `.dot` is caught, `"matrix not
  aligned?"` is printed, and execution falls through — so line 138 then
  references the never-assigned local `mat_1` and raises
  `UnboundLocalError`;
* line 138: `np.linalg.inv` raises `LinAlgError` on a singular
  `mat_1` — uncaught, it propagates;
* lines 140-141: the `.dot`s in `mat_2` sit outside any `try`, so an
  alignment failure there propagates as a raw `ValueError`.
-/
def getWeightsFrames (settings : CalculationSettings)
    (marketWeights : SeriesL) (marketCov : FrameL) (viewMatrix : FrameL)
    (viewCov : FrameL) (viewOutPerformance : SeriesL) : Except PyError SeriesL :=
  let tryMat1 : Except PyError FrameL := do
    let pSigma ← viewMatrix.dot marketCov
    let pSigmaPt ← pSigma.dot viewMatrix.transpose
    pure ((viewCov.divideScalar settings.tau).add pSigmaPt)
  match tryMat1 with
  | Except.error _ => Except.error PyError.unboundLocalError
  | Except.ok mat1 => do
      let mat1Inv ← npLinalgInvFrame mat1
      let pSigma ← viewMatrix.dot marketCov
      let pSigmaW ← pSigma.dotSeries marketWeights
      let mat2 := (viewOutPerformance.divideScalar settings.riskAversion).sub pSigmaW
      let ptInv ← viewMatrix.transpose.dot mat1Inv
      let blend ← ptInv.dotSeries mat2
      pure (marketWeights.add blend)

/-- `BLEngine.get_view_covariances_from_confidences` (lines 103-121):

    cov_by_view = dict()
    for view in all_views: cov_by_view.update({view.id: var})
    var_series = pd.Series(cov_by_view)
    cov_matrix = pd.DataFrame(np.diag(var_series), index=var_series.index, columns=var_series.index)
-/
def getViewCovariancesFromConfidences {n : Nat} (minimize : Minimizer)
    (settings : CalculationSettings) (marketWeights : Fin n → ℚ)
    (marketCovariance : Matrix (Fin n) (Fin n) ℚ)
    (viewCollection : ViewCollection n) : FrameL :=
  let covByView := viewCollection.getAllViews.foldl
    (fun d view =>
      dictUpdate d view.id (confidenceToVariance minimize settings view marketWeights marketCovariance))
    []
  let varIndex := covByView.map Prod.fst
  let varValues := covByView.map Prod.snd
  ⟨varIndex, varIndex, npDiag varValues⟩

/-- Modelled from the spec: the `Weights` label constants of
`constants.py` (not under the provided sources).  Only their identity
matters to the engine; the string values are placeholders. -/
def Weights.MARKET : String := "Market Weights"

/-- Modelled from the spec: see `Weights.MARKET`. -/
def Weights.BLACK_LITTERMAN : String := "Black-Litterman Weights"

/-- A `pd.Series` together with its `name` attribute, as returned by the
engine facade. -/
structure NamedVector (n : Nat) where
  name : String
  values : Fin n → ℚ

/-- The market-data collaborator (spec §6): the operations of the object
returned by `data_reader.get_market_data_engine(...)` that the engine
uses. -/
structure MarketDataEngine (n : Nat) where
  getMarketWeights : String → NamedVector n
  getAnnualisedCovMatrix : String → String → Matrix (Fin n) (Fin n) ℚ

/-- `BLEngine` (lines 33-41): holds the market-data collaborator and the
immutable calculation settings. -/
structure BLEngine (n : Nat) where
  marketDataEngine : MarketDataEngine n
  calcSettings : CalculationSettings

/-- `BLEngine.get_market_weights` (lines 43-54): default the end date to
the settings' calculation date, fetch from the collaborator, and set the
series name to `Weights.MARKET`. -/
def BLEngine.getMarketWeights {n : Nat} (e : BLEngine n) (endDate : Option String) :
    NamedVector n :=
  let resolvedDate :=
    match endDate with
    | none => e.calcSettings.calculationDate
    | some d => d
  let weights := e.marketDataEngine.getMarketWeights resolvedDate
  { weights with name := Weights.MARKET }

/-- `BLEngine.get_black_litterman_weights` (lines 80-101): fetch market
weights and covariance, build P and Q from the collection, calibrate the
diagonal view covariance, run `_get_weights`, and label the result
`Weights.BLACK_LITTERMAN`.  The calibrated covariance `DataFrame` is
indexed by view ids in collection order, which (ids being unique) is
exactly the label alignment pandas applies against the rows of P, so it
enters the solver positionally here. -/
def BLEngine.getBlackLittermanWeights {n : Nat} (e : BLEngine n) (minimize : Minimizer)
    (viewCollection : ViewCollection n) (startDate endDate : String) : NamedVector n :=
  let marketWeights := (e.marketDataEngine.getMarketWeights endDate).values
  let marketCov := e.marketDataEngine.getAnnualisedCovMatrix startDate endDate
  let viewMat := viewCollection.getViewMatrix
  let viewOutPerformance := viewCollection.getViewOutPerformances
  let viewCovFrame :=
    getViewCovariancesFromConfidences minimize e.calcSettings marketWeights marketCov viewCollection
  let viewCov : Matrix (Fin viewCollection.views.length) (Fin viewCollection.views.length) ℚ :=
    Matrix.of fun i j => viewCovFrame.entryAt i j
  let blWeights := getWeights e.calcSettings marketWeights marketCov viewMat viewCov viewOutPerformance
  { name := Weights.BLACK_LITTERMAN, values := blWeights }

/-- Modelled from the spec (§4.2 step 1, claim C3): a view's
full-confidence weights are the Weight Solver output on only that view's
row and out-performance entry, with a 1×1 view covariance whose sole
entry is exactly zero. -/
def fullConfidenceWeightsSpec {n : Nat} (settings : CalculationSettings) (view : View n)
    (marketWeights : Fin n → ℚ) (marketCovariance : Matrix (Fin n) (Fin n) ℚ) : Fin n → ℚ :=
  getWeights settings marketWeights marketCovariance view.singleRowMatrix
    (Matrix.of fun _ _ => (0 : ℚ)) view.singleOutPerformance

/-! Concrete fixtures (the spec's §8 concrete scenario: two assets `A`,
`B`, market weights 0.6/0.4, the stated covariance, tau = 0.05, risk
aversion = 2.5, one relative view `A` minus `B` asserting 3%
out-performance with confidence 0.5). -/

/-- Fixture: the §8 scenario's calculation settings. -/
def egSettings : CalculationSettings :=
  { tau := 1 / 20, riskAversion := 5 / 2, startDate := "2019-12-31",
    calculationDate := "2020-12-31", assetUniverse := ["A", "B"] }

/-- Fixture: market weights 0.6 / 0.4. -/
def egMw : Fin 2 → ℚ := ![3 / 5, 2 / 5]

/-- Fixture: market covariance [[0.04, 0.01], [0.01, 0.09]]. -/
def egMc : Matrix (Fin 2) (Fin 2) ℚ := !![1 / 25, 1 / 100; 1 / 100, 9 / 100]

/-- Fixture: the view row {A: 1, B: -1}. -/
def egP : Matrix (Fin 1) (Fin 2) ℚ := !![1, -1]

/-- Fixture: a 1×1 view covariance with variance 0.1. -/
def egOmega : Matrix (Fin 1) (Fin 1) ℚ := !![1 / 10]

/-- Fixture: out-performance vector [0.03]. -/
def egQ : Fin 1 → ℚ := ![3 / 100]

/-- Fixture: an all-zero view row (makes `mat_1` singular with a zero
view covariance). -/
def egPZero : Matrix (Fin 1) (Fin 2) ℚ := !![0, 0]

/-- Fixture: a 1×1 zero view covariance. -/
def egOmegaZero : Matrix (Fin 1) (Fin 1) ℚ := !![0]

/-- Fixture: the §8 scenario's view. -/
def egView : View 2 :=
  { id := "view1", viewName := "A outperforms B", confidence := 1 / 2,
    outPerformance := 3 / 100, allocation := ![1, -1] }

/-- Fixture: a collection holding only `egView`. -/
def egSingleViews : ViewCollection 2 := ⟨[egView], by simp⟩

/-- Fixture: the empty view collection. -/
def egEmptyViews : ViewCollection 2 := ⟨[], by simp⟩

/-- Fixture: a market-data collaborator serving the §8 scenario. -/
def egMde : MarketDataEngine 2 :=
  { getMarketWeights := fun _ => ⟨"raw", egMw⟩,
    getAnnualisedCovMatrix := fun _ _ => egMc }

/-- Fixture: an engine bound to `egMde` and `egSettings`. -/
def egEngine : BLEngine 2 := ⟨egMde, egSettings⟩

/-- Fixture: a minimizer oracle that converges trivially to its initial
guess. -/
def egConstMinimizer : Minimizer := fun _ x0 => ⟨x0, true⟩

/-- Fixture: a minimizer run that fails to converge (iteration budget
exceeded): scipy then still returns an `OptimizeResult`, with
`success = False` and whatever iterate it stopped at — here `-1`. -/
def nonConvergingMinimizer : Minimizer := fun _ _ => ⟨-1, false⟩

/-- Fixture: labelled market weights over assets `A`, `B`. -/
def egMwL : SeriesL := ⟨["A", "B"], [3 / 5, 2 / 5]⟩

/-- Fixture: labelled market covariance over `A`, `B`. -/
def egCovL : FrameL := ⟨["A", "B"], ["A", "B"], [[1 / 25, 1 / 100], [1 / 100, 9 / 100]]⟩

/-- Fixture: a labelled view matrix referencing asset `C`, which is
absent from `egCovL`'s index — the spec §8 dimension-mismatch input. -/
def egPBadL : FrameL := ⟨["view1"], ["A", "B", "C"], [[1, -1, 0]]⟩

/-- Fixture: labelled 1×1 view covariance. -/
def egOmegaL : FrameL := ⟨["view1"], ["view1"], [[1 / 10]]⟩

/-- Fixture: labelled out-performance vector. -/
def egQL : SeriesL := ⟨["view1"], [3 / 100]⟩

/-! ## Theorems -/

/-- Coherence of the two `_get_weights` models: whenever `mat_1` is
invertible, the error-aware model returns exactly the happy-path
value. -/
theorem getWeightsE_ok {n k : Nat} (settings : CalculationSettings)
    (marketWeights : Fin n → ℚ) (marketCov : Matrix (Fin n) (Fin n) ℚ)
    (viewMatrix : Matrix (Fin k) (Fin n) ℚ) (viewCov : Matrix (Fin k) (Fin k) ℚ)
    (viewOutPerformance : Fin k → ℚ)
    (hdet : (Matrix.of (fun i j => viewCov i j / settings.tau) +
        viewMatrix * marketCov * viewMatrix.transpose).det ≠ 0) :
    getWeightsE settings marketWeights marketCov viewMatrix viewCov viewOutPerformance =
      Except.ok (getWeights settings marketWeights marketCov viewMatrix viewCov
        viewOutPerformance) := by
  simp only [getWeightsE, getWeights, if_neg hdet]

/-- C1: for every market weight vector, market covariance, view matrix P,
view covariance Ω, out-performance vector Q and positive `tau` and
`risk_aversion`, on an invertible `mat_1` the Weight Solver
(`_get_weights`, lines 123-144) returns
`market_weights + Pᵗ · inverse(Ω/tau + P·market_cov·Pᵗ) ·
(Q/risk_aversion − P·market_cov·market_weights)` — a vector indexed like
`market_weights` (here: the same type `Fin n → ℚ`); moreover the
`inverse` used is the genuine matrix inverse of `mat_1`. -/
theorem getWeightsE_eq_spec_posterior {n k : Nat} (settings : CalculationSettings)
    (marketWeights : Fin n → ℚ) (marketCov : Matrix (Fin n) (Fin n) ℚ)
    (viewMatrix : Matrix (Fin k) (Fin n) ℚ) (viewCov : Matrix (Fin k) (Fin k) ℚ)
    (viewOutPerformance : Fin k → ℚ)
    (htau : 0 < settings.tau) (hra : 0 < settings.riskAversion)
    (hdet : (Matrix.of (fun i j => viewCov i j / settings.tau) +
        viewMatrix * marketCov * viewMatrix.transpose).det ≠ 0) :
    getWeightsE settings marketWeights marketCov viewMatrix viewCov viewOutPerformance =
      Except.ok (specPosteriorWeights settings.tau settings.riskAversion
        marketWeights marketCov viewMatrix viewCov viewOutPerformance) ∧
    matInverse (Matrix.of (fun i j => viewCov i j / settings.tau) +
        viewMatrix * marketCov * viewMatrix.transpose) *
      (Matrix.of (fun i j => viewCov i j / settings.tau) +
        viewMatrix * marketCov * viewMatrix.transpose) = 1 := by
  constructor
  · rw [getWeightsE_ok _ _ _ _ _ _ hdet]
    unfold getWeights specPosteriorWeights
    rw [Matrix.mulVec_mulVec, Matrix.mulVec_mulVec]
  · rw [matInverse, Matrix.smul_mul, Matrix.adjugate_mul, smul_smul,
      inv_mul_cancel₀ hdet, one_smul]

/-- Witness for C1 at the §8 scenario inputs. -/
theorem getWeightsE_eq_spec_posterior_inst :
    getWeightsE egSettings egMw egMc egP egOmega egQ =
      Except.ok (specPosteriorWeights egSettings.tau egSettings.riskAversion
        egMw egMc egP egOmega egQ) :=
  (getWeightsE_eq_spec_posterior egSettings egMw egMc egP egOmega egQ
    (by norm_num [egSettings]) (by norm_num [egSettings])
    (by norm_num [Matrix.det_fin_one, Matrix.mul_apply, Matrix.of_apply, Fin.sum_univ_two,
      egOmega, egP, egMc, egSettings, Matrix.transpose_apply, Matrix.cons_val_zero,
      Matrix.cons_val_one, Matrix.head_cons, Matrix.vecHead, Matrix.vecTail])).1

/-- C4: the calibration target weight vector is the linear interpolation
`market_weights + confidence × (full_confidence_weights − market_weights)`
(`_get_view_target_weights`, lines 146-163). -/
theorem target_weights_linear_interpolation {n : Nat} (settings : CalculationSettings)
    (view : View n) (marketWeights : Fin n → ℚ)
    (marketCovariance : Matrix (Fin n) (Fin n) ℚ)
    (viewMatrix : Matrix (Fin 1) (Fin n) ℚ) (viewOutPerformance : Fin 1 → ℚ) :
    getViewTargetWeights settings view marketWeights marketCovariance viewMatrix
        viewOutPerformance =
      fun i => marketWeights i + view.confidence *
        (getWeights settings marketWeights marketCovariance viewMatrix
          (Matrix.of fun _ _ => 0) viewOutPerformance i - marketWeights i) := by
  funext i
  simp [getViewTargetWeights, Pi.add_apply, Pi.smul_apply, Pi.sub_apply, smul_eq_mul]

/-- C9: `get_market_weights` (lines 43-54) defaults a missing `end_date`
to the settings' calculation date and passes an explicit date through
unchanged; the values are the collaborator's weights at that date. -/
theorem get_market_weights_date_default {n : Nat} (e : BLEngine n) (d : String) :
    (e.getMarketWeights none).values =
      (e.marketDataEngine.getMarketWeights e.calcSettings.calculationDate).values ∧
    (e.getMarketWeights (some d)).values =
      (e.marketDataEngine.getMarketWeights d).values :=
  ⟨rfl, rfl⟩

/-- C10: the facade labels the market weights `Weights.MARKET` and the
Black-Litterman weights `Weights.BLACK_LITTERMAN`, and renaming is the
only change it applies to the computed values before returning them
(lines 52-54 and 99-101). -/
theorem facade_labels_weights {n : Nat} (e : BLEngine n) (d : Option String)
    (minimize : Minimizer) (vc : ViewCollection n) (startDate endDate : String) :
    (e.getMarketWeights d).name = Weights.MARKET ∧
    (e.getMarketWeights d).values =
      (e.marketDataEngine.getMarketWeights
        (d.getD e.calcSettings.calculationDate)).values ∧
    (e.getBlackLittermanWeights minimize vc startDate endDate).name =
      Weights.BLACK_LITTERMAN ∧
    (e.getBlackLittermanWeights minimize vc startDate endDate).values =
      getWeights e.calcSettings
        (e.marketDataEngine.getMarketWeights endDate).values
        (e.marketDataEngine.getAnnualisedCovMatrix startDate endDate)
        vc.getViewMatrix
        (Matrix.of fun i j =>
          (getViewCovariancesFromConfidences minimize e.calcSettings
            (e.marketDataEngine.getMarketWeights endDate).values
            (e.marketDataEngine.getAnnualisedCovMatrix startDate endDate) vc).entryAt i j)
        vc.getViewOutPerformances := by
  refine ⟨rfl, ?_, rfl, rfl⟩
  cases d <;> rfl

/-- C2: with an empty `ViewCollection` (zero views, hence a zero-row
view matrix and empty Q and Omega), `get_black_litterman_weights`
returns exactly the market weights fetched from the collaborator: the
blending term is a sum over zero views and vanishes. -/
theorem blackLitterman_empty_views_eq_market {n : Nat} (e : BLEngine n)
    (minimize : Minimizer) (vc : ViewCollection n) (startDate endDate : String)
    (h : vc.views = []) :
    (e.getBlackLittermanWeights minimize vc startDate endDate).values =
      (e.marketDataEngine.getMarketWeights endDate).values := by
  have hlen : vc.views.length = 0 := by rw [h]; rfl
  haveI : IsEmpty (Fin vc.views.length) := by rw [hlen]; infer_instance
  funext i
  simp [BLEngine.getBlackLittermanWeights, getWeights, Matrix.mulVec,
    Matrix.dotProduct, Finset.univ_eq_empty]

/-- Witness for C2: the concrete engine returns the concrete market
weights on the empty collection. -/
theorem blackLitterman_empty_views_eq_market_inst :
    (egEngine.getBlackLittermanWeights egConstMinimizer egEmptyViews
        "2019-12-31" "2020-12-31").values =
      (egEngine.marketDataEngine.getMarketWeights "2020-12-31").values :=
  blackLitterman_empty_views_eq_market egEngine egConstMinimizer egEmptyViews
    "2019-12-31" "2020-12-31" rfl

/-- C6: when `mat_1 = view_cov/tau + P·market_cov·Pᵗ` is singular, the
Weight Solver fails with the singular-matrix error (`np.linalg.inv`
raises `LinAlgError: Singular matrix` at line 138, outside any `try`,
so it propagates); it never returns a substituted result. -/
theorem singular_mat1_raises_singular_matrix {n k : Nat} (settings : CalculationSettings)
    (marketWeights : Fin n → ℚ) (marketCov : Matrix (Fin n) (Fin n) ℚ)
    (viewMatrix : Matrix (Fin k) (Fin n) ℚ) (viewCov : Matrix (Fin k) (Fin k) ℚ)
    (viewOutPerformance : Fin k → ℚ)
    (hdet : (Matrix.of (fun i j => viewCov i j / settings.tau) +
        viewMatrix * marketCov * viewMatrix.transpose).det = 0) :
    getWeightsE settings marketWeights marketCov viewMatrix viewCov viewOutPerformance =
      Except.error PyError.singularMatrix ∧
    ∀ w, getWeightsE settings marketWeights marketCov viewMatrix viewCov
        viewOutPerformance ≠ Except.ok w := by
  have h1 : getWeightsE settings marketWeights marketCov viewMatrix viewCov
      viewOutPerformance = Except.error PyError.singularMatrix := by
    simp only [getWeightsE, if_pos hdet]
  exact ⟨h1, fun w hw => by rw [h1] at hw; exact Except.noConfusion hw⟩

/-- Witness for C6: a degenerate view (all-zero row) with a zero view
covariance makes `mat_1` singular, and the call fails. -/
theorem singular_mat1_raises_singular_matrix_inst :
    getWeightsE egSettings egMw egMc egPZero egOmegaZero egQ =
      Except.error PyError.singularMatrix :=
  (singular_mat1_raises_singular_matrix egSettings egMw egMc egPZero egOmegaZero egQ
    (by norm_num [Matrix.det_fin_one, Matrix.mul_apply, Matrix.of_apply, Fin.sum_univ_two,
      egOmegaZero, egPZero, egMc, egSettings, Matrix.transpose_apply, Matrix.cons_val_zero,
      Matrix.cons_val_one, Matrix.head_cons, Matrix.vecHead, Matrix.vecTail])).1

/-- `dict.update` on a fresh key appends the pair. -/
theorem dictUpdate_of_not_mem (d : List (String × ℚ)) (k : String) (v : ℚ)
    (h : k ∉ d.map Prod.fst) : dictUpdate d k v = d ++ [(k, v)] := by
  simp [dictUpdate, h]

/-- Folding `dict.update` over views with pairwise-distinct ids, starting
from a dict none of them occurs in, appends one entry per view in view
order. -/
theorem foldl_dictUpdate_eq_map {n : Nat} (f : View n → ℚ) :
    ∀ (views : List (View n)) (d : List (String × ℚ)),
      (views.map View.id).Nodup →
      (∀ v ∈ views, v.id ∉ d.map Prod.fst) →
      views.foldl (fun d view => dictUpdate d view.id (f view)) d =
        d ++ views.map (fun v => (v.id, f v))
  | [], d, _, _ => by simp
  | v :: vs, d, hnd, hdisj => by
    have hv : v.id ∉ d.map Prod.fst := hdisj v (List.mem_cons_self v vs)
    have hnd' : (vs.map View.id).Nodup := (List.nodup_cons.mp hnd).2
    have hvid : v.id ∉ vs.map View.id := (List.nodup_cons.mp hnd).1
    have hdisj' : ∀ u ∈ vs, u.id ∉ (d ++ [(v.id, f v)]).map Prod.fst := by
      intro u hu hmem
      rcases (by simpa [List.map_append] using hmem :
          (∃ x, (u.id, x) ∈ d) ∨ u.id = v.id) with ⟨x, hx⟩ | huv
      · exact hdisj u (List.mem_cons_of_mem v hu) (List.mem_map.mpr ⟨(u.id, x), hx, rfl⟩)
      · exact hvid (huv ▸ List.mem_map_of_mem View.id hu)
    rw [List.foldl_cons, dictUpdate_of_not_mem d v.id (f v) hv,
      foldl_dictUpdate_eq_map f vs (d ++ [(v.id, f v)]) hnd' hdisj']
    simp

/-- The dict built by `get_view_covariances_from_confidences` lists each
view's id with its calibrated variance, in view order. -/
theorem covByView_eq {n : Nat} (minimize : Minimizer) (settings : CalculationSettings)
    (marketWeights : Fin n → ℚ) (marketCovariance : Matrix (Fin n) (Fin n) ℚ)
    (vc : ViewCollection n) :
    vc.getAllViews.foldl
        (fun d view => dictUpdate d view.id
          (confidenceToVariance minimize settings view marketWeights marketCovariance)) [] =
      vc.views.map (fun v =>
        (v.id, confidenceToVariance minimize settings v marketWeights marketCovariance)) := by
  rw [ViewCollection.getAllViews,
    foldl_dictUpdate_eq_map _ vc.views [] vc.nodupIds (by simp), List.nil_append]

/-- `getD` after mapping a function over `List.range`. -/
theorem getD_map_range {α : Type} (f : Nat → α) (d : α) {i n : Nat} (h : i < n) :
    ((List.range n).map f).getD i d = f i := by
  rw [List.getD_eq_getElem?_getD, List.getElem?_map, List.getElem?_range h]
  rfl

/-- Positional entries of `np.diag(values)`. -/
theorem npDiag_getD (values : List ℚ) (i j : Nat)
    (hi : i < values.length) (hj : j < values.length) :
    ((npDiag values).getD i []).getD j 0 = if i = j then values.getD i 0 else 0 := by
  unfold npDiag
  rw [getD_map_range _ _ hi, getD_map_range _ _ hj]

/-- The covariance frame fully unfolded: ids in view order on both axes,
`np.diag` of the calibrated variances as entries. -/
theorem getViewCovariances_eq {n : Nat} (minimize : Minimizer)
    (settings : CalculationSettings) (marketWeights : Fin n → ℚ)
    (marketCovariance : Matrix (Fin n) (Fin n) ℚ) (vc : ViewCollection n) :
    getViewCovariancesFromConfidences minimize settings marketWeights marketCovariance vc =
      ⟨vc.views.map View.id, vc.views.map View.id,
        npDiag (vc.views.map fun v =>
          confidenceToVariance minimize settings v marketWeights marketCovariance)⟩ := by
  unfold getViewCovariancesFromConfidences
  rw [covByView_eq]
  simp [List.map_map, Function.comp_def]

/-- C7: `get_view_covariances_from_confidences` (lines 103-121) returns a
square frame with exactly one row and one column per view, labelled by
view id in collection order on both axes, whose diagonal holds each
view's calibrated variance and whose off-diagonal entries are exactly
zero. -/
theorem view_covariances_diagonal_structure {n : Nat} (minimize : Minimizer)
    (settings : CalculationSettings) (marketWeights : Fin n → ℚ)
    (marketCovariance : Matrix (Fin n) (Fin n) ℚ) (vc : ViewCollection n) :
    (getViewCovariancesFromConfidences minimize settings marketWeights
        marketCovariance vc).rows = vc.views.map View.id ∧
    (getViewCovariancesFromConfidences minimize settings marketWeights
        marketCovariance vc).cols = vc.views.map View.id ∧
    ∀ i j : Fin vc.views.length,
      (getViewCovariancesFromConfidences minimize settings marketWeights
          marketCovariance vc).entryAt i j =
        if i = j then
          confidenceToVariance minimize settings (vc.views.get i) marketWeights
            marketCovariance
        else 0 := by
  rw [getViewCovariances_eq]
  refine ⟨rfl, rfl, fun i j => ?_⟩
  show ((npDiag _).getD _ _).getD _ _ = _
  rw [npDiag_getD _ i j (by simp) (by simp)]
  rw [List.getD_eq_getElem?_getD, List.getElem?_map, List.getElem?_eq_getElem i.isLt]
  simp [Fin.val_eq_val, List.get_eq_getElem]

/-- C3: for every view in the collection, the calibrated variance placed
on the diagonal is computed from that single view alone — the solver is
invoked with only that view's row, its out-performance entry, and (for
the full-confidence target) a 1×1 view covariance whose sole entry is
exactly zero; no other view's row and no full-collection data enters
(the right-hand side mentions only `vc.views.get i`). -/
theorem calibration_uses_single_view_isolation {n : Nat} (minimize : Minimizer)
    (settings : CalculationSettings) (marketWeights : Fin n → ℚ)
    (marketCovariance : Matrix (Fin n) (Fin n) ℚ) (vc : ViewCollection n)
    (i : Fin vc.views.length) :
    (getViewCovariancesFromConfidences minimize settings marketWeights
        marketCovariance vc).entryAt i i =
      (minimize
        (fun var => sumSquaresError
          (getWeights settings marketWeights marketCovariance
            (vc.views.get i).singleRowMatrix (Matrix.of fun _ _ => var)
            (vc.views.get i).singleOutPerformance)
          (marketWeights + (vc.views.get i).confidence •
            (fullConfidenceWeightsSpec settings (vc.views.get i) marketWeights
                marketCovariance - marketWeights)))
        (1 / 10)).x := by
  rw [getViewCovariances_eq]
  show ((npDiag _).getD _ _).getD _ _ = _
  rw [npDiag_getD _ i i (by simp) (by simp), if_pos rfl]
  rw [List.getD_eq_getElem?_getD, List.getElem?_map, List.getElem?_eq_getElem i.isLt]
  rfl

/-- C5 (evaluation at the failing input): on the spec §8
dimension-mismatch input — a view matrix referencing asset `C`, absent
from the market covariance's index — `_get_weights` does NOT fail with a
`DimensionMismatch` error: the `except ValueError` on lines 136-137
swallows the pandas alignment failure, prints a diagnostic, and
continues, so line 138 raises `UnboundLocalError` on the never-assigned
`mat_1`. -/
theorem misaligned_inputs_raise_unbound_local :
    getWeightsFrames egSettings egMwL egCovL egPBadL egOmegaL egQL =
      Except.error PyError.unboundLocalError ∧
    getWeightsFrames egSettings egMwL egCovL egPBadL egOmegaL egQL ≠
      Except.error PyError.dimensionMismatch := by
  refine ⟨rfl, fun hc => ?_⟩
  exact PyError.noConfusion (Except.error.inj hc)

/-- C8 (evaluation at the failing input): when the scalar minimizer does
not converge (`success = False`, here with iterate `-1`),
`_confidence_to_variance` (lines 177-199) still returns `result.x`
unchanged — it never inspects `success`, finiteness or sign — and
`get_view_covariances_from_confidences` silently builds Omega with the
negative variance instead of failing with `CalibrationNonConvergence`. -/
theorem nonconvergent_variance_used_silently :
    (∀ objective x0, (nonConvergingMinimizer objective x0).success = false) ∧
    confidenceToVariance nonConvergingMinimizer egSettings egView egMw egMc = -1 ∧
    (getViewCovariancesFromConfidences nonConvergingMinimizer egSettings egMw egMc
        egSingleViews).entryAt 0 0 = -1 := by
  refine ⟨fun _ _ => rfl, rfl, ?_⟩
  rfl

end BlackLitterman
